import Mathlib

/-!
Shallow embedding of the `redirector` URL-shortening service
(`src/main.rs`).  The storage component is an `RwLock`-guarded
`HashMap<String, (String, String)>` mapping an identifier to a
`(target_url, owner)` pair; we model the guarded map as an association
list with unique keys plus a `poisoned` flag for the lock (the only way
`RwLock::read`/`write` can fail in the source is lock poisoning, which
the source converts to `StorageError::InternalError`).  The HTTP
handlers `create_redirect` and `handle_redirect` are embedded as pure
functions from storage state and request data to the rendered response
plus the next state.
-/

namespace Redirector

/-- `StorageError` from `src/main.rs` lines 15-20. -/
inductive StorageError where
  | NotFound
  | AlreadyExists
  | InternalError (detail : String)
  deriving DecidableEq, Repr

/-- The guarded map of `InMemoryStorage` (`src/main.rs` lines 84-86):
`RwLock<HashMap<String, (String, String)>>`.  The map is modelled as an
association list of `(identifier, target_url, owner)` triples; `poisoned`
records whether the lock is poisoned (the failure case of
`read()`/`write()` that the source maps to `InternalError`). -/
structure InMemoryStorage where
  poisoned : Bool
  data : List (String × String × String)
  deriving DecidableEq, Repr

/-- `HashMap::get` on the modelled map: the `(url, owner)` pair stored
under exactly the key `id`, if any. -/
def findRecord (l : List (String × String × String)) (id : String) :
    Option (String × String) :=
  match l with
  | [] => none
  | (i, u, o) :: rest => if i = id then some (u, o) else findRecord rest id

/-- `HashMap::contains_key` on the modelled map. -/
def contains_key (l : List (String × String × String)) (id : String) : Bool :=
  (findRecord l id).isSome

/-- `InMemoryStorage::lookup` (`src/main.rs` lines 98-103): acquire the
read lock (fails with `InternalError` when poisoned), then
`data.get(id).map(|(url, _)| url.clone()).ok_or(StorageError::NotFound)`. -/
def lookup (st : InMemoryStorage) (id : String) : Except StorageError String :=
  if st.poisoned then .error (.InternalError "poisoned lock")
  else
    match findRecord st.data id with
    | some (url, _) => .ok url
    | none => .error .NotFound

/-- `InMemoryStorage::store` (`src/main.rs` lines 105-113): acquire the
write lock (fails with `InternalError` when poisoned); if
`data.contains_key(id)` fail with `AlreadyExists`, otherwise insert
`(id, (url, owner))` and return `Ok(())`.  Returns the result together
with the storage state after the call. -/
def store (st : InMemoryStorage) (id url owner : String) :
    Except StorageError Unit × InMemoryStorage :=
  if st.poisoned then (.error (.InternalError "poisoned lock"), st)
  else if contains_key st.data id then (.error .AlreadyExists, st)
  else (.ok (), { st with data := (id, url, owner) :: st.data })

/-- Modelled from the spec: the file `src/templates/index.html` pulled in
by `include_str!` is not present under `src/`.  The spec describes it as
a single HTML document (the home page with the creation form) containing
one textual placeholder for the message region, which is normally empty. -/
def indexTemplate : String :=
  "<html><head><title>Redirector</title></head><body><!-- MESSAGE_PLACEHOLDER --><form action=\"/create\" method=\"post\"></form></body></html>"

/-- The message `<div>` built by `create_redirect` (`src/main.rs` lines
51-56): `format!("<div class='message {}' style='display:block;'>{}</div>", ...)`
with `success`/`error` chosen by `is_success`. -/
def messageDiv (isSuccess : Bool) (message : String) : String :=
  "<div class=\x27message " ++ (if isSuccess then "success" else "error") ++
    "\x27 style=\x27display:block;\x27>" ++ message ++ "</div>"

/-- The `create_redirect` handler (`src/main.rs` lines 35-60): calls
`store`, chooses the message and success flag from the result, and
substitutes the message `<div>` for the placeholder in the index
template (the message is never empty, so the substitution always
happens).  Returns the rendered HTML and the storage state after the
call. -/
def create_redirect (st : InMemoryStorage) (short_name url owner : String) :
    String × InMemoryStorage :=
  let r := store st short_name url owner
  let mi : String × Bool :=
    match r.1 with
    | .ok _ => ("Redirect created successfully", true)
    | .error .AlreadyExists => ("ID already exists", false)
    | .error _ => ("An error occurred while creating the redirect", false)
  let html :=
    if mi.1.isEmpty then indexTemplate
    else indexTemplate.replace "<!-- MESSAGE_PLACEHOLDER -->" (messageDiv mi.2 mi.1)
  (html, r.2)

/-- The `index` handler (`src/main.rs` lines 62-68): the template with
the message placeholder replaced by the empty string. -/
def index_page : String :=
  indexTemplate.replace "<!-- MESSAGE_PLACEHOLDER -->" ""

/-- The two redirect responses the `handle_redirect` handler can build:
`Redirect::permanent(url)` and `Redirect::temporary(location)`. -/
inductive RedirectResponse where
  | permanent (location : String)
  | temporary (location : String)
  deriving DecidableEq, Repr

/-- The `handle_redirect` handler (`src/main.rs` lines 70-81): `lookup`
the path segment, then a permanent redirect to the stored URL on `Ok`, a
temporary redirect to `/` with a message query parameter on `NotFound`,
and a temporary redirect to `/` with a generic message on any other
error. -/
def handle_redirect (st : InMemoryStorage) (id : String) : RedirectResponse :=
  match lookup st id with
  | .ok url => .permanent url
  | .error .NotFound => .temporary "/?message=Redirect not found&success=false"
  | .error _ =>
      .temporary "/?message=An error occurred while looking up the redirect&success=false"

/-- A storage operation issued by a handler: either a `lookup` or a
`store`. -/
inductive Op where
  | lookupOp (id : String)
  | storeOp (id url owner : String)
  deriving DecidableEq, Repr

/-- Effect of one operation on the storage state: `lookup` never mutates
(it only takes the read lock), `store` yields the post-state of `store`. -/
def applyOp (st : InMemoryStorage) (op : Op) : InMemoryStorage :=
  match op with
  | .lookupOp _ => st
  | .storeOp i u o => (store st i u o).2

/-- Effect of a sequence of operations on the storage state. -/
def applyOps (st : InMemoryStorage) (ops : List Op) : InMemoryStorage :=
  ops.foldl applyOp st

/-- `N` `store` calls for the same identifier, serialized by the
exclusive write lock: each call runs on the state left by the previous
one.  `calls` lists the `(url, owner)` arguments in the order the lock
grants them; the result is the list of the calls' results together with
the final state. -/
def storeSeq (st : InMemoryStorage) (id : String) :
    List (String × String) → List (Except StorageError Unit) × InMemoryStorage
  | [] => ([], st)
  | c :: rest =>
    let r := store st id c.1 c.2
    let rs := storeSeq r.2 id rest
    (r.1 :: rs.1, rs.2)

/-- The owner-erased view of the storage map: only the identifier and
target URL of each record. -/
def eraseOwner (l : List (String × String × String)) : List (String × String) :=
  l.map fun r => (r.1, r.2.1)

/-- Run a sequence of `store` calls, each given as an
`(identifier, url, owner)` triple, discarding the results. -/
def runStores (st : InMemoryStorage) :
    List (String × String × String) → InMemoryStorage
  | [] => st
  | c :: rest => runStores (store st c.1 c.2.1 c.2.2).2 rest

/-- `store` never changes the poisoned flag: the poisoned branch and the
`AlreadyExists` branch leave the state alone, the insert branch only
updates `data`. -/
theorem store_poisoned_eq (st : InMemoryStorage) (i u o : String) :
    (store st i u o).2.poisoned = st.poisoned := by
  unfold store
  split
  · rfl
  · split <;> rfl

/-- C1: for every identifier `i` not present in storage (and a healthy,
non-poisoned lock), `store i u o` succeeds and a subsequent `lookup i`
on the resulting state returns exactly the URL `u` that was stored. -/
theorem store_then_lookup (st : InMemoryStorage) (i u o : String)
    (hp : st.poisoned = false) (h : findRecord st.data i = none) :
    (store st i u o).1 = .ok () ∧ lookup (store st i u o).2 i = .ok u := by
  simp [store, lookup, contains_key, findRecord, hp, h]

/-- Witness for C1: on the empty storage, storing `abc ↦ https://example.com`
succeeds and looking `abc` up returns `https://example.com`. -/
theorem store_then_lookup_witness :
    (store ⟨false, []⟩ "abc" "https://example.com" "alice").1 = .ok () ∧
      lookup (store ⟨false, []⟩ "abc" "https://example.com" "alice").2 "abc" =
        .ok "https://example.com" :=
  store_then_lookup ⟨false, []⟩ "abc" "https://example.com" "alice" rfl rfl

/-- C2: for an identifier `i` already stored with URL `u0` (healthy
lock), a second `store i u2 o2` fails with `AlreadyExists`, leaves the
storage state completely unchanged, and `lookup i` still returns the
originally stored URL `u0`. -/
theorem store_duplicate (st : InMemoryStorage) (i u0 o0 u2 o2 : String)
    (hp : st.poisoned = false) (h : findRecord st.data i = some (u0, o0)) :
    (store st i u2 o2).1 = .error .AlreadyExists ∧
      (store st i u2 o2).2 = st ∧
      lookup (store st i u2 o2).2 i = .ok u0 := by
  simp [store, lookup, contains_key, hp, h]

/-- Witness for C2: with `abc ↦ (https://example.com, alice)` stored,
re-storing `abc` fails with `AlreadyExists`, the state is unchanged and
`lookup abc` still gives `https://example.com`. -/
theorem store_duplicate_witness :
    (store ⟨false, [("abc", "https://example.com", "alice")]⟩ "abc" "https://other.org" "bob").1 =
        .error .AlreadyExists ∧
      (store ⟨false, [("abc", "https://example.com", "alice")]⟩ "abc" "https://other.org" "bob").2 =
        ⟨false, [("abc", "https://example.com", "alice")]⟩ ∧
      lookup (store ⟨false, [("abc", "https://example.com", "alice")]⟩ "abc" "https://other.org" "bob").2
          "abc" = .ok "https://example.com" :=
  store_duplicate ⟨false, [("abc", "https://example.com", "alice")]⟩
    "abc" "https://example.com" "alice" "https://other.org" "bob" rfl (by decide)

/-- C3: with a healthy lock, `lookup i` fails with `NotFound` whenever no
record exists for `i`; and lookup matches only the exact identifier:
storing `i` does not make `lookup j` succeed for any `j ≠ i` that had no
record (so in particular no partial or prefix matching). -/
theorem lookup_not_found_exact (st : InMemoryStorage) (i j u o : String)
    (hp : st.poisoned = false) (hi : findRecord st.data i = none)
    (hj : findRecord st.data j = none) (hne : j ≠ i) :
    lookup st i = .error .NotFound ∧
      lookup (store st i u o).2 j = .error .NotFound := by
  have hji : ¬i = j := fun h => hne h.symm
  constructor
  · simp [lookup, hp, hi]
  · simp [store, lookup, contains_key, findRecord, hp, hi, hj, hji]

/-- Witness for C3: on the empty storage, `lookup abc` is `NotFound`, and
after storing `abc`, looking up the proper prefix `ab` is still
`NotFound`. -/
theorem lookup_not_found_exact_witness :
    lookup ⟨false, []⟩ "abc" = .error .NotFound ∧
      lookup (store ⟨false, []⟩ "abc" "https://example.com" "alice").2 "ab" =
        .error .NotFound :=
  lookup_not_found_exact ⟨false, []⟩ "abc" "ab" "https://example.com" "alice"
    rfl rfl rfl (by decide)

/-- C10: a successful `store i u o` changes only the record for `i`: for
every identifier `j ≠ i`, `lookup j` returns the same result after the
call as before it. -/
theorem store_frame (st : InMemoryStorage) (i u o j : String)
    (hok : (store st i u o).1 = .ok ()) (hne : j ≠ i) :
    lookup (store st i u o).2 j = lookup st j := by
  unfold store at hok ⊢
  by_cases hp : st.poisoned
  · simp [hp] at hok
  · by_cases hc : contains_key st.data i
    · simp [hp, hc] at hok
    · have hij : ¬i = j := fun h => hne h.symm
      simp [hp, hc, lookup, findRecord, hij]

/-- Witness for C10: after successfully storing `abc` on a state holding
`xyz`, `lookup xyz` is unchanged. -/
theorem store_frame_witness :
    lookup (store ⟨false, [("xyz", "https://xyz.org", "carol")]⟩
        "abc" "https://example.com" "alice").2 "xyz" =
      lookup ⟨false, [("xyz", "https://xyz.org", "carol")]⟩ "xyz" :=
  store_frame ⟨false, [("xyz", "https://xyz.org", "carol")]⟩
    "abc" "https://example.com" "alice" "xyz" rfl (by decide)

/-- A `store` call never removes or overwrites an existing record: any
record present before the call is present, unchanged, after it. -/
theorem findRecord_store (st : InMemoryStorage) (i id' u' o' : String)
    (p : String × String) (h : findRecord st.data i = some p) :
    findRecord (store st id' u' o').2.data i = some p := by
  unfold store
  by_cases hp : st.poisoned
  · simp [hp, h]
  · by_cases hc : contains_key st.data id'
    · simp [hp, hc, h]
    · have hne : ¬id' = i := by
        intro he
        subst he
        simp [contains_key, h] at hc
      simp [hp, hc, findRecord, hne, h]

/-- One storage operation never removes or overwrites an existing
record. -/
theorem findRecord_applyOp (st : InMemoryStorage) (op : Op) (i : String)
    (p : String × String) (h : findRecord st.data i = some p) :
    findRecord (applyOp st op).data i = some p := by
  cases op with
  | lookupOp _ => exact h
  | storeOp id' u' o' => exact findRecord_store st i id' u' o' p h

/-- No sequence of storage operations removes or overwrites an existing
record. -/
theorem findRecord_applyOps (st : InMemoryStorage) (ops : List Op) (i : String)
    (p : String × String) (h : findRecord st.data i = some p) :
    findRecord (applyOps st ops).data i = some p := by
  induction ops generalizing st with
  | nil => exact h
  | cons op rest ih =>
    show findRecord (applyOps (applyOp st op) rest).data i = some p
    exact ih (applyOp st op) (findRecord_applyOp st op i p h)

/-- No storage operation changes the poisoned flag. -/
theorem applyOps_poisoned (st : InMemoryStorage) (ops : List Op) :
    (applyOps st ops).poisoned = st.poisoned := by
  induction ops generalizing st with
  | nil => rfl
  | cons op rest ih =>
    show (applyOps (applyOp st op) rest).poisoned = st.poisoned
    rw [ih]
    cases op with
    | lookupOp _ => rfl
    | storeOp i u o => exact store_poisoned_eq st i u o

/-- C4: once a record for `i` is present with URL `u` (healthy lock),
every sequence of subsequent operations — lookups of any identifier,
stores of any identifier — keeps it present with exactly the pair
`(u, o)`, and `lookup i` still returns `u` afterwards, so repeated
lookups all return the same URL. -/
theorem record_never_mutated (st : InMemoryStorage) (i u o : String)
    (ops : List Op) (hp : st.poisoned = false)
    (h : findRecord st.data i = some (u, o)) :
    findRecord (applyOps st ops).data i = some (u, o) ∧
      lookup (applyOps st ops) i = .ok u := by
  have hf := findRecord_applyOps st ops i (u, o) h
  have hp2 : (applyOps st ops).poisoned = false :=
    (applyOps_poisoned st ops).trans hp
  exact ⟨hf, by simp [lookup, hp2, hf]⟩

/-- Witness for C4: `abc ↦ https://example.com` survives a duplicate
store, a lookup, and a store of a different identifier. -/
theorem record_never_mutated_witness :
    findRecord (applyOps ⟨false, [("abc", "https://example.com", "alice")]⟩
        [.storeOp "abc" "https://evil.org" "bob", .lookupOp "abc",
          .storeOp "xyz" "https://xyz.org" "carol"]).data "abc" =
      some ("https://example.com", "alice") ∧
      lookup (applyOps ⟨false, [("abc", "https://example.com", "alice")]⟩
          [.storeOp "abc" "https://evil.org" "bob", .lookupOp "abc",
            .storeOp "xyz" "https://xyz.org" "carol"]) "abc" =
        .ok "https://example.com" :=
  record_never_mutated ⟨false, [("abc", "https://example.com", "alice")]⟩
    "abc" "https://example.com" "alice"
    [.storeOp "abc" "https://evil.org" "bob", .lookupOp "abc",
      .storeOp "xyz" "https://xyz.org" "carol"] rfl (by decide)

/-- C5: the `create_redirect` handler renders the index page with
"Redirect created successfully" (as a success message) exactly when
`store` returns `Ok`, with "ID already exists" (as an error message)
exactly when `store` returns `AlreadyExists`, and with the generic
"An error occurred..." message on any other `store` failure; in every
case the response is the full index page with the message substituted
for the placeholder. -/
theorem create_redirect_messages (st : InMemoryStorage) (n u o : String) :
    ((store st n u o).1 = .ok () →
      (create_redirect st n u o).1 =
        indexTemplate.replace "<!-- MESSAGE_PLACEHOLDER -->"
          (messageDiv true "Redirect created successfully")) ∧
    ((store st n u o).1 = .error .AlreadyExists →
      (create_redirect st n u o).1 =
        indexTemplate.replace "<!-- MESSAGE_PLACEHOLDER -->"
          (messageDiv false "ID already exists")) ∧
    (∀ e : StorageError, (store st n u o).1 = .error e → e ≠ .AlreadyExists →
      (create_redirect st n u o).1 =
        indexTemplate.replace "<!-- MESSAGE_PLACEHOLDER -->"
          (messageDiv false "An error occurred while creating the redirect")) := by
  refine ⟨?_, ?_, ?_⟩
  · intro h
    simp [create_redirect, h]
    intro h2
    exact absurd h2 (by decide)
  · intro h
    simp [create_redirect, h]
    intro h2
    exact absurd h2 (by decide)
  · intro e h hne
    cases e with
    | NotFound =>
      simp [create_redirect, h]
      intro h2
      exact absurd h2 (by decide)
    | AlreadyExists => exact absurd rfl hne
    | InternalError d =>
      simp [create_redirect, h]
      intro h2
      exact absurd h2 (by decide)

/-- Witness for C5: creating `abc` on the empty storage renders the
success message into the page. -/
theorem create_redirect_messages_witness :
    (create_redirect ⟨false, []⟩ "abc" "https://example.com" "alice").1 =
      indexTemplate.replace "<!-- MESSAGE_PLACEHOLDER -->"
        (messageDiv true "Redirect created successfully") :=
  (create_redirect_messages ⟨false, []⟩ "abc" "https://example.com" "alice").1 rfl

/-- C6: `handle_redirect` issues a permanent redirect to the stored URL
when `lookup` succeeds, a temporary redirect to the home path with an
error message query parameter when `lookup` fails with `NotFound`, and
the same kind of temporary redirect with a generic message on any other
`lookup` failure. -/
theorem handle_redirect_cases (st : InMemoryStorage) (id : String) :
    (∀ u, lookup st id = .ok u → handle_redirect st id = .permanent u) ∧
    (lookup st id = .error .NotFound →
      handle_redirect st id =
        .temporary "/?message=Redirect not found&success=false") ∧
    (∀ e : StorageError, lookup st id = .error e → e ≠ .NotFound →
      handle_redirect st id =
        .temporary "/?message=An error occurred while looking up the redirect&success=false") := by
  refine ⟨?_, ?_, ?_⟩
  · intro u h
    simp [handle_redirect, h]
  · intro h
    simp [handle_redirect, h]
  · intro e h hne
    cases e with
    | NotFound => exact absurd rfl hne
    | AlreadyExists => simp [handle_redirect, h]
    | InternalError d => simp [handle_redirect, h]

/-- Witness for C6: with `abc ↦ https://example.com` stored,
`GET /go/abc` is a permanent redirect to the stored URL, and
`GET /go/nope` is the temporary redirect to the home path. -/
theorem handle_redirect_cases_witness :
    handle_redirect ⟨false, [("abc", "https://example.com", "alice")]⟩ "abc" =
      .permanent "https://example.com" ∧
    handle_redirect ⟨false, [("abc", "https://example.com", "alice")]⟩ "nope" =
      .temporary "/?message=Redirect not found&success=false" :=
  ⟨(handle_redirect_cases ⟨false, [("abc", "https://example.com", "alice")]⟩
      "abc").1 "https://example.com" rfl,
   (handle_redirect_cases ⟨false, [("abc", "https://example.com", "alice")]⟩
      "nope").2.1 rfl⟩

/-- C7: `store` (and `lookup`) fail with `InternalError` exactly when
the lock is poisoned; with a healthy lock, `store` returns only `Ok` or
`AlreadyExists` and `lookup` returns only `Ok` or `NotFound` — the
`InternalError` branches are unreachable. -/
theorem internal_error_only_poisoned (st : InMemoryStorage) (i u o : String) :
    ((∃ d, (store st i u o).1 = .error (.InternalError d)) ↔ st.poisoned = true) ∧
    ((∃ d, lookup st i = .error (.InternalError d)) ↔ st.poisoned = true) ∧
    (st.poisoned = false →
      ((store st i u o).1 = .ok () ∨
        (store st i u o).1 = .error .AlreadyExists) ∧
      ((∃ v, lookup st i = .ok v) ∨ lookup st i = .error .NotFound)) := by
  by_cases hp : st.poisoned
  · refine ⟨?_, ?_, ?_⟩
    · simp [store, hp]
    · simp [lookup, hp]
    · intro h
      rw [hp] at h
      exact absurd h (by simp)
  · refine ⟨?_, ?_, ?_⟩
    · constructor
      · intro ⟨d, hd⟩
        by_cases hc : contains_key st.data i <;> simp [store, hp, hc] at hd
      · intro h
        exact absurd h (by simp [hp])
    · constructor
      · intro ⟨d, hd⟩
        cases hq : findRecord st.data i with
        | none => simp [lookup, hp, hq] at hd
        | some p => simp [lookup, hp, hq] at hd
      · intro h
        exact absurd h (by simp [hp])
    · intro _
      constructor
      · by_cases hc : contains_key st.data i
        · right
          simp [store, hp, hc]
        · left
          simp [store, hp, hc]
      · cases hq : findRecord st.data i with
        | none =>
          right
          simp [lookup, hp, hq]
        | some p =>
          left
          exact ⟨p.1, by simp [lookup, hp, hq]⟩

/-- Witness for C7: on a healthy empty storage, `store` succeeds and
`lookup` misses with `NotFound`; on a poisoned storage, `store`
returns `InternalError`. -/
theorem internal_error_only_poisoned_witness :
    (((store ⟨false, []⟩ "abc" "u" "o").1 = .ok () ∨
        (store ⟨false, []⟩ "abc" "u" "o").1 = .error .AlreadyExists) ∧
      ((∃ v, lookup ⟨false, []⟩ "abc" = .ok v) ∨
        lookup ⟨false, []⟩ "abc" = .error .NotFound)) ∧
    (∃ d, (store ⟨true, []⟩ "abc" "u" "o").1 = .error (.InternalError d)) :=
  ⟨(internal_error_only_poisoned ⟨false, []⟩ "abc" "u" "o").2.2 rfl,
   (internal_error_only_poisoned ⟨true, []⟩ "abc" "u" "o").1.mpr rfl⟩

/-- Once an identifier is present, every further serialized `store`
call for it fails with `AlreadyExists` and leaves the state unchanged. -/
theorem storeSeq_present (st : InMemoryStorage) (i : String)
    (rest : List (String × String)) (hp : st.poisoned = false)
    (h : contains_key st.data i = true) :
    storeSeq st i rest =
      (rest.map (fun _ => .error .AlreadyExists), st) := by
  induction rest with
  | nil => rfl
  | cons c cs ih =>
    have hs : store st i c.1 c.2 = (.error .AlreadyExists, st) := by
      simp [store, hp, h]
    simp [storeSeq, hs, ih]

/-- C8: serialized by the exclusive write lock, `N` concurrent `store`
calls with the same identifier (in whatever order the lock grants them)
produce exactly one success — the first to acquire the lock — and `N-1`
`AlreadyExists` failures, and a subsequent `lookup` returns the URL
from the single successful call. -/
theorem concurrent_store_single_winner (st : InMemoryStorage) (i : String)
    (c : String × String) (rest : List (String × String))
    (hp : st.poisoned = false) (h : findRecord st.data i = none) :
    (storeSeq st i (c :: rest)).1 =
      .ok () :: rest.map (fun _ => .error .AlreadyExists) ∧
      lookup (storeSeq st i (c :: rest)).2 i = .ok c.1 := by
  obtain ⟨cu, co⟩ := c
  have hc : contains_key st.data i = false := by simp [contains_key, h]
  have hs : store st i cu co =
      (.ok (), (⟨false, (i, cu, co) :: st.data⟩ : InMemoryStorage)) := by
    simp [store, hp, hc, InMemoryStorage.mk.injEq]
  have hc2 : contains_key ((i, cu, co) :: st.data) i = true := by
    simp [contains_key, findRecord]
  have hrest :=
    storeSeq_present ⟨false, (i, cu, co) :: st.data⟩ i rest rfl hc2
  constructor
  · simp [storeSeq, hs, hrest]
  · simp [storeSeq, hs, hrest, lookup, findRecord]

/-- Witness for C8: three racing stores of `abc` on the empty storage:
the first wins, the other two get `AlreadyExists`, and `lookup abc`
returns the winner's URL. -/
theorem concurrent_store_single_winner_witness :
    (storeSeq ⟨false, []⟩ "abc"
        [("https://one.com", "alice"), ("https://two.com", "bob"),
          ("https://three.com", "carol")]).1 =
      [.ok (), .error .AlreadyExists, .error .AlreadyExists] ∧
      lookup (storeSeq ⟨false, []⟩ "abc"
          [("https://one.com", "alice"), ("https://two.com", "bob"),
            ("https://three.com", "carol")]).2 "abc" = .ok "https://one.com" :=
  concurrent_store_single_winner ⟨false, []⟩ "abc" ("https://one.com", "alice")
    [("https://two.com", "bob"), ("https://three.com", "carol")] rfl rfl

/-- Two maps with the same owner-erased view store the same URL (or no
record) under every identifier. -/
theorem findRecord_eraseOwner (l1 l2 : List (String × String × String))
    (j : String) (h : eraseOwner l1 = eraseOwner l2) :
    (findRecord l1 j).map Prod.fst = (findRecord l2 j).map Prod.fst := by
  induction l1 generalizing l2 with
  | nil =>
    cases l2 with
    | nil => rfl
    | cons d ds => simp [eraseOwner] at h
  | cons c cs ih =>
    cases l2 with
    | nil => simp [eraseOwner] at h
    | cons d ds =>
      obtain ⟨ci, cu, co⟩ := c
      obtain ⟨di, du, dort⟩ := d
      simp [eraseOwner] at h
      obtain ⟨⟨h1, h2⟩, h3⟩ := h
      subst h1
      subst h2
      by_cases hcj : ci = j
      · simp [findRecord, hcj]
      · simpa [findRecord, hcj] using ih ds h3

/-- `lookup` depends only on the poisoned flag and the owner-erased view
of the map: the stored owners never influence its result. -/
theorem lookup_eraseOwner_congr (st1 st2 : InMemoryStorage) (j : String)
    (hp : st1.poisoned = st2.poisoned)
    (h : eraseOwner st1.data = eraseOwner st2.data) :
    lookup st1 j = lookup st2 j := by
  have hf := findRecord_eraseOwner st1.data st2.data j h
  unfold lookup
  rw [hp]
  by_cases hp2 : st2.poisoned
  · simp [hp2]
  · simp only [hp2]
    cases hq1 : findRecord st1.data j with
    | none =>
      cases hq2 : findRecord st2.data j with
      | none => rfl
      | some p => simp [hq1, hq2] at hf
    | some p =>
      cases hq2 : findRecord st2.data j with
      | none => simp [hq1, hq2] at hf
      | some q =>
        simp [hq1, hq2] at hf
        simp [hf]

/-- A single `store` preserves agreement of the poisoned flag and of the
owner-erased view, whatever owners the two runs pass. -/
theorem store_eraseOwner_congr (st1 st2 : InMemoryStorage)
    (i u o1 o2 : String) (hp : st1.poisoned = st2.poisoned)
    (h : eraseOwner st1.data = eraseOwner st2.data) :
    (store st1 i u o1).2.poisoned = (store st2 i u o2).2.poisoned ∧
      eraseOwner (store st1 i u o1).2.data =
        eraseOwner (store st2 i u o2).2.data := by
  have hf := findRecord_eraseOwner st1.data st2.data i h
  have hck : contains_key st1.data i = contains_key st2.data i := by
    unfold contains_key
    cases hq1 : findRecord st1.data i with
    | none =>
      cases hq2 : findRecord st2.data i with
      | none => rfl
      | some p => simp [hq1, hq2] at hf
    | some p =>
      cases hq2 : findRecord st2.data i with
      | none => simp [hq1, hq2] at hf
      | some q => rfl
  unfold store
  by_cases hp2 : st2.poisoned
  · simp [hp, hp2, h]
  · by_cases hc2 : contains_key st2.data i
    · simp [hp, hp2, hck, hc2, h]
    · simp [hp, hp2, hck, hc2, eraseOwner]
      exact h

/-- Running two sequences of `store` calls that agree on identifiers and
URLs (but may differ in owners) from states that agree up to owners
leaves states that still agree up to owners. -/
theorem runStores_eraseOwner_congr (calls1 calls2 : List (String × String × String))
    (st1 st2 : InMemoryStorage) (hp : st1.poisoned = st2.poisoned)
    (h : eraseOwner st1.data = eraseOwner st2.data)
    (hc : eraseOwner calls1 = eraseOwner calls2) :
    (runStores st1 calls1).poisoned = (runStores st2 calls2).poisoned ∧
      eraseOwner (runStores st1 calls1).data =
        eraseOwner (runStores st2 calls2).data := by
  induction calls1 generalizing calls2 st1 st2 with
  | nil =>
    cases calls2 with
    | nil => exact ⟨hp, h⟩
    | cons d ds => simp [eraseOwner] at hc
  | cons c cs ih =>
    cases calls2 with
    | nil => simp [eraseOwner] at hc
    | cons d ds =>
      obtain ⟨ci, cu, co⟩ := c
      obtain ⟨di, du, dow⟩ := d
      simp [eraseOwner] at hc
      obtain ⟨⟨h1, h2⟩, h3⟩ := hc
      subst h1
      subst h2
      have hstep := store_eraseOwner_congr st1 st2 ci cu co dow hp h
      exact ih ds (store st1 ci cu co).2 (store st2 ci cu dow).2
        hstep.1 hstep.2 h3

/-- C9: the result of `lookup` never depends on the owner values passed
to `store`: two executions whose `store` calls agree on identifiers and
URLs but may differ arbitrarily in owners (started from states that
agree up to owners) give the same result for every lookup. -/
theorem lookup_owner_noninterference (st1 st2 : InMemoryStorage)
    (calls1 calls2 : List (String × String × String)) (j : String)
    (hp : st1.poisoned = st2.poisoned)
    (hd : eraseOwner st1.data = eraseOwner st2.data)
    (hc : eraseOwner calls1 = eraseOwner calls2) :
    lookup (runStores st1 calls1) j = lookup (runStores st2 calls2) j := by
  have h := runStores_eraseOwner_congr calls1 calls2 st1 st2 hp hd hc
  exact lookup_eraseOwner_congr (runStores st1 calls1) (runStores st2 calls2)
    j h.1 h.2

/-- Witness for C9: storing `abc` with owner `alice` in one run and
owner `mallory` in the other gives the same `lookup abc` result. -/
theorem lookup_owner_noninterference_witness :
    lookup (runStores ⟨false, []⟩ [("abc", "https://example.com", "alice")]) "abc" =
      lookup (runStores ⟨false, []⟩ [("abc", "https://example.com", "mallory")]) "abc" :=
  lookup_owner_noninterference ⟨false, []⟩ ⟨false, []⟩
    [("abc", "https://example.com", "alice")]
    [("abc", "https://example.com", "mallory")] "abc" rfl rfl (by decide)

end Redirector
